import Mathlib

/-!
# Auto Parts Tracker — verification of the record-store operations

Shallow embedding of the parts-tracking core of the repository:

* `actions/ro-actions.ts` (the Supabase server actions `scanPart`,
  `updatePartQuantity`, `deletePart`, `finalizeRO`) — this is the networked
  variant that the specification designates as authoritative;
* `schema.sql` — the `finalize_ro` plpgsql RPC (snapshot creation);
* `components/RODetails.tsx` (server-action variant) — the offline scan
  queue: `handleScan`, `handleSync`, `handleFinalize`;
* `components/Scanner.tsx` — the four-stage decode pipeline `processFrame`.

The record store is modelled as an explicit `Store` value holding the four
tables of `schema.sql`; each server action becomes a pure function from a
`Store` (plus the identifiers and timestamps the runtime would generate) to
a result paired with the next `Store`.  `Except String α` stands for the
`{ success, data } / { error }` result objects of the TypeScript code.
-/

namespace AutoParts

/-- Lifecycle state of a repair order: the `status` column of table `ro`
(`check (status in ('draft','finalized'))`). -/
inductive ROStatus where
  | draft
  | finalized
deriving DecidableEq, Repr

/-- A row of table `ro` (type `RO` in `ro-actions.ts`). -/
structure RO where
  id : String
  ro_number : String
  status : ROStatus
  created_at : String
  finalized_at : Option String
deriving DecidableEq, Repr

/-- A row of table `ro_scanned_parts` (type `ScannedPart` in `ro-actions.ts`). -/
structure ScannedPart where
  id : String
  ro_id : String
  barcode_value : String
  quantity : Int
  created_at : String
  updated_at : String
deriving DecidableEq, Repr

/-- A row of table `ro_final_entries` (type `FinalEntry` in `ro-actions.ts`):
the snapshot header. -/
structure FinalEntry where
  id : String
  ro_id : String
  ro_number : String
  finalized_at : String
deriving DecidableEq, Repr

/-- A row of table `ro_final_parts`: one snapshot line.  The row's own
auto-generated uuid primary key plays no role in any operation and is not
modelled. -/
structure FinalPart where
  final_entry_id : String
  barcode_value : String
  quantity : Int
deriving DecidableEq, Repr

/-- The record store: the four tables created by `schema.sql`. -/
structure Store where
  ros : List RO
  parts : List ScannedPart
  finalEntries : List FinalEntry
  finalParts : List FinalPart
deriving DecidableEq, Repr

/-- `scanPart` from `ro-actions.ts`: look the order up and require `draft`
status; then fetch the `(ro_id, barcode_value)` row; if it exists, set its
`quantity` to the fetched value plus one and stamp `updated_at`; otherwise
insert a new row with quantity 1.  `now` stands for
`new Date().toISOString()` and `newId` for the uuid the insert generates. -/
def scanPart (roId barcode now newId : String) (db : Store) :
    Except String ScannedPart × Store :=
  match db.ros.find? (fun r => r.id == roId) with
  | none => (Except.error "RO not found", db)
  | some ro =>
    if ro.status ≠ ROStatus.draft then
      (Except.error "RO is already finalized", db)
    else
      match db.parts.find? (fun p => p.ro_id == roId && p.barcode_value == barcode) with
      | some existing =>
        (Except.ok { existing with quantity := existing.quantity + 1, updated_at := now },
         { db with parts := db.parts.map (fun p =>
             if p.id == existing.id then
               { p with quantity := existing.quantity + 1, updated_at := now }
             else p) })
      | none =>
        let newPart : ScannedPart :=
          { id := newId, ro_id := roId, barcode_value := barcode,
            quantity := 1, created_at := now, updated_at := now }
        (Except.ok newPart, { db with parts := db.parts ++ [newPart] })

/-- `updatePartQuantity` from `ro-actions.ts`: reject a quantity below 1,
otherwise update the row with id `scanId` (the action performs no check of
the owning order's status). -/
def updatePartQuantity (scanId : String) (quantity : Int) (now : String) (db : Store) :
    Except String Unit × Store :=
  if quantity < 1 then
    (Except.error "Quantity must be at least 1", db)
  else
    (Except.ok (), { db with parts := db.parts.map (fun p =>
        if p.id == scanId then { p with quantity := quantity, updated_at := now } else p) })

/-- `deletePart` from `ro-actions.ts`: delete the rows whose id is `scanId`
(no status check, and deleting zero rows is a success). -/
def deletePart (scanId : String) (db : Store) : Except String Unit × Store :=
  (Except.ok (), { db with parts := db.parts.filter (fun p => !(p.id == scanId)) })

/-- The three write steps of the `finalize_ro` plpgsql function in
`schema.sql`: snapshot-header insert, snapshot-line copy, status update. -/
inductive FinStep where
  | insertEntry
  | copyParts
  | updateStatus
deriving DecidableEq, Repr

/-- The body of the `finalize_ro` plpgsql function executed step by step:
raise if the order is already finalized, insert the `ro_final_entries`
header, copy every `ro_scanned_parts` row of the order into
`ro_final_parts`, set the order's status to `finalized`.  `fail` injects a
store failure at any of the three write steps; a failing step raises and
leaves the state reached so far (the transaction wrapper below undoes it). -/
def finalize_ro_steps (roId roNumber finId now : String) (fail : FinStep → Bool)
    (db : Store) : Except String Unit × Store :=
  if db.ros.any (fun r => r.id == roId && r.status == ROStatus.finalized) then
    (Except.error "RO is already finalized", db)
  else if fail FinStep.insertEntry then
    (Except.error "insert into ro_final_entries failed", db)
  else
    let db1 : Store :=
      { db with finalEntries := db.finalEntries ++
          [{ id := finId, ro_id := roId, ro_number := roNumber, finalized_at := now }] }
    if fail FinStep.copyParts then
      (Except.error "insert into ro_final_parts failed", db1)
    else
      let db2 : Store :=
        { db1 with finalParts := db1.finalParts ++
            (db1.parts.filter (fun p => p.ro_id == roId)).map (fun p =>
              { final_entry_id := finId, barcode_value := p.barcode_value,
                quantity := p.quantity }) }
      if fail FinStep.updateStatus then
        (Except.error "update ro failed", db2)
      else
        (Except.ok (),
         { db2 with ros := db2.ros.map (fun r =>
             if r.id == roId then
               { r with status := ROStatus.finalized, finalized_at := some now }
             else r) })

/-- The `finalize_ro` RPC as observed by its caller.  A plpgsql function
body runs inside the calling transaction and a raised exception aborts it,
so every write the body performed is undone: on any error the caller sees
the original store. -/
def finalize_ro (roId roNumber finId now : String) (fail : FinStep → Bool)
    (db : Store) : Except String Unit × Store :=
  match finalize_ro_steps roId roNumber finId now fail db with
  | (Except.error e, _) => (Except.error e, db)
  | ok => ok

/-- The `fail` oracle of a run in which the record store works. -/
def noFail : FinStep → Bool := fun _ => false

/-- `finalizeRO` from `ro-actions.ts`: verify the order exists and is in
draft, fetch its parts and reject an empty order, then call the
`finalize_ro` RPC. -/
def finalizeRO (roId roNumber finId now : String) (fail : FinStep → Bool)
    (db : Store) : Except String Unit × Store :=
  match db.ros.find? (fun r => r.id == roId) with
  | none => (Except.error "RO not found", db)
  | some ro =>
    if ro.status ≠ ROStatus.draft then
      (Except.error "RO is already finalized", db)
    else if (db.parts.filter (fun p => p.ro_id == roId)).isEmpty then
      (Except.error "Cannot finalize empty RO", db)
    else
      finalize_ro roId roNumber finId now fail db

/-- `handleFinalize` from `RODetails.tsx` (server-action variant): refuse
to finalize while offline scans are still queued, otherwise call the
`finalizeRO` action.  (The confirmation dialog is user interaction and is
not modelled.) -/
def handleFinalize (pendingScans : List String) (roId roNumber finId now : String)
    (fail : FinStep → Bool) (db : Store) : Except String Unit × Store :=
  if pendingScans.length > 0 then
    (Except.error "Cannot finalize with pending offline scans. Please sync first.", db)
  else
    finalizeRO roId roNumber finId now fail db

/-- The lines of the snapshot with header id `finId`: the query
`select barcode_value, quantity from ro_final_parts where final_entry_id = …`
run by the export in `FinalsList.tsx`. -/
def snapshotLines (finId : String) (db : Store) : List FinalPart :=
  db.finalParts.filter (fun fp => fp.final_entry_id == finId)

/-- The complete effect of a successful finalization, for stating
atomicity: status updated, header appended, one line per part appended. -/
def finalizeEffect (roId roNumber finId now : String) (db : Store) : Store :=
  { db with
    ros := db.ros.map (fun r =>
      if r.id == roId then
        { r with status := ROStatus.finalized, finalized_at := some now }
      else r),
    finalEntries := db.finalEntries ++
      [{ id := finId, ro_id := roId, ro_number := roNumber, finalized_at := now }],
    finalParts := db.finalParts ++
      (db.parts.filter (fun p => p.ro_id == roId)).map (fun p =>
        { final_entry_id := finId, barcode_value := p.barcode_value,
          quantity := p.quantity }) }

/-- The finalize preconditions as §4.3 of the specification words them:
order exists and is in draft, at least one part, no pending offline scans.
Stated from the spec, to be compared with what the code checks. -/
def finalizePrecondsSpec (pendingScans : List String) (roId : String) (db : Store) : Bool :=
  pendingScans.isEmpty &&
  (match db.ros.find? (fun r => r.id == roId) with
   | some ro => ro.status == ROStatus.draft
   | none => false) &&
  !(db.parts.filter (fun p => p.ro_id == roId)).isEmpty

/-- Observable outcome of one commit attempt, §4.2's
`Committed | Queued | Rejected(reason)`. -/
inductive CommitResult where
  | committed (part : ScannedPart)
  | queued
  | rejected (reason : String)
deriving DecidableEq, Repr

/-- `handleScan` from `RODetails.tsx` (server-action variant): call the
`scanPart` action; an error result is shown to the user and NOT queued; a
thrown exception (the server was unreachable, `online = false`) appends the
barcode to the persisted pending list.  Returns the outcome, the new
pending list, and the new store. -/
def handleScan (online : Bool) (pending : List String) (roId barcode now newId : String)
    (db : Store) : CommitResult × List String × Store :=
  if online then
    match scanPart roId barcode now newId db with
    | (Except.ok p, db1) => (CommitResult.committed p, pending, db1)
    | (Except.error e, db1) => (CommitResult.rejected e, pending, db1)
  else
    (CommitResult.queued, pending ++ [barcode], db)

/-- One commit attempt of the sync loop: attempt `i` on barcode `b`.
`reach i` says whether this `scanPart` call reaches the server; an
unreached call throws, which the loop treats like an error result, with the
store untouched.  `gens i` supplies the timestamp and fresh uuid of the
attempt. -/
def syncAttempt (reach : Nat → Bool) (gens : Nat → String × String) (roId : String)
    (i : Nat) (b : String) (db : Store) : Except String ScannedPart × Store :=
  if reach i then scanPart roId b (gens i).1 (gens i).2 db
  else (Except.error "Failed to fetch", db)

/-- The loop body of `handleSync` from `RODetails.tsx`: iterate the pending
list in order; a failed attempt pushes its barcode onto `failed`, a
successful one does not; every entry is attempted.  Returns the `failed`
list (which `savePendingScans(failed)` makes the new queue) and the final
store. -/
def handleSyncGo (reach : Nat → Bool) (gens : Nat → String × String) (roId : String) :
    Nat → List String → Store → List String × Store
  | _, [], db => ([], db)
  | i, b :: rest, db =>
    match syncAttempt reach gens roId i b db with
    | (Except.ok _, db1) => handleSyncGo reach gens roId (i + 1) rest db1
    | (Except.error _, db1) =>
      let r := handleSyncGo reach gens roId (i + 1) rest db1
      (b :: r.1, r.2)

/-- `handleSync` from `RODetails.tsx`: one drain pass over the whole
pending queue. -/
def handleSync (reach : Nat → Bool) (gens : Nat → String × String) (roId : String)
    (pending : List String) (db : Store) : List String × Store :=
  handleSyncGo reach gens roId 0 pending db

/-- The attempt log of one drain pass: every queued barcode paired with
whether its commit attempt succeeded, built by the same sequential
iteration as `handleSyncGo`. -/
def handleSyncResults (reach : Nat → Bool) (gens : Nat → String × String) (roId : String) :
    Nat → List String → Store → List (String × Bool)
  | _, [], _ => []
  | i, b :: rest, db =>
    match syncAttempt reach gens roId i b db with
    | (Except.ok _, db1) => (b, true) :: handleSyncResults reach gens roId (i + 1) rest db1
    | (Except.error _, db1) => (b, false) :: handleSyncResults reach gens roId (i + 1) rest db1

/-- `processFrame` from `Scanner.tsx`, parametrised by the primitive image
operations it drives: `decode` is one single-shot ZXing decode attempt
(`none` is the caught NotFoundException), `gray` is
`cvtColor(..., COLOR_RGBA2GRAY)`, `eqh` is `equalizeHist`, `thresh` is
`adaptiveThreshold(..., 11, 2)`.  The transforms are cumulative: the Mat
`dst` is reused, so stage 3 equalizes the grayscale image and stage 4
thresholds the equalized one.  Returns the producing stage's name with the
symbol, or `none` (NotFound: fall through to the next frame). -/
def processFrame {Img : Type} (decode : Img → Option String) (gray eqh thresh : Img → Img)
    (frame : Img) : Option (String × String) :=
  match decode frame with
  | some t => some ("Normal", t)
  | none =>
    let g := gray frame
    match decode g with
    | some t => some ("Grayscale", t)
    | none =>
      let c := eqh g
      match decode c with
      | some t => some ("Contrast", t)
      | none =>
        let th := thresh c
        match decode th with
        | some t => some ("Threshold", t)
        | none => none

/-- The pipeline as §4.1 words it: an ordered list of (stage name, image)
pairs, the first decodable one wins. -/
def pipelineStagesSpec {Img : Type} (gray eqh thresh : Img → Img) (frame : Img) :
    List (String × Img) :=
  [("Normal", frame),
   ("Grayscale", gray frame),
   ("Contrast", eqh (gray frame)),
   ("Threshold", thresh (eqh (gray frame)))]

/-! ## Sample stores and inputs, used to instantiate the theorems -/

/-- A draft order. -/
def sampleRO : RO :=
  { id := "r1", ro_number := "R100", status := ROStatus.draft,
    created_at := "t0", finalized_at := none }

/-- One scanned part of the draft order. -/
def samplePart : ScannedPart :=
  { id := "p1", ro_id := "r1", barcode_value := "A1", quantity := 1,
    created_at := "t1", updated_at := "t1" }

/-- A store holding one empty draft order. -/
def sampleDraftDb : Store :=
  { ros := [sampleRO], parts := [], finalEntries := [], finalParts := [] }

/-- A store holding one draft order with one part. -/
def sampleDraftDb1 : Store :=
  { ros := [sampleRO], parts := [samplePart], finalEntries := [], finalParts := [] }

/-- A finalized order. -/
def sampleFinalRO : RO :=
  { id := "r2", ro_number := "R200", status := ROStatus.finalized,
    created_at := "t0", finalized_at := some "t1" }

/-- A part row belonging to the finalized order. -/
def sampleFinalPartRow : ScannedPart :=
  { id := "q1", ro_id := "r2", barcode_value := "B1", quantity := 1,
    created_at := "t0", updated_at := "t0" }

/-- A store holding one finalized order that still owns a part row. -/
def sampleFinalDb : Store :=
  { ros := [sampleFinalRO], parts := [sampleFinalPartRow],
    finalEntries := [], finalParts := [] }

/-- A decode attempt that succeeds exactly on image value 3. -/
def decodeAt3 : Nat → Option String := fun n => if n == 3 then some "SYM" else none

/-! ## Helper lemmas -/

theorem scanPart_finalParts (roId b now nid : String) (db : Store) :
    ((scanPart roId b now nid db).2).finalParts = db.finalParts := by
  unfold scanPart
  split
  · rfl
  · split
    · rfl
    · split
      · rfl
      · rfl

theorem updatePartQuantity_finalParts (scanId : String) (q : Int) (now : String)
    (db : Store) : ((updatePartQuantity scanId q now db).2).finalParts = db.finalParts := by
  unfold updatePartQuantity
  split
  · rfl
  · rfl

theorem deletePart_finalParts (scanId : String) (db : Store) :
    ((deletePart scanId db).2).finalParts = db.finalParts := rfl

theorem scanPart_cases (roId b now nid : String) (db : Store) :
    (∃ e, scanPart roId b now nid db = (Except.error e, db)) ∨
    ∃ p, (scanPart roId b now nid db).1 = Except.ok p := by
  unfold scanPart
  split
  · exact Or.inl ⟨_, rfl⟩
  · split
    · exact Or.inl ⟨_, rfl⟩
    · split
      · exact Or.inr ⟨_, rfl⟩
      · exact Or.inr ⟨_, rfl⟩

theorem scanPart_error_frame (roId b now nid : String) (db : Store) (e : String)
    (h : (scanPart roId b now nid db).1 = Except.error e) :
    scanPart roId b now nid db = (Except.error e, db) := by
  rcases scanPart_cases roId b now nid db with ⟨e2, he⟩ | ⟨p, hp⟩
  · rw [he] at h
    simp only at h
    rw [he, h]
  · rw [hp] at h
    simp at h

/-! ## Claim theorems -/

/-- C9: deleting a part id that matches no stored part returns success and
leaves the store unchanged — `deletePart` is a silent no-op on a missing
part. -/
theorem deletePart_missing_noop (scanId : String) (db : Store)
    (h : ∀ p ∈ db.parts, p.id ≠ scanId) :
    deletePart scanId db = (Except.ok (), db) := by
  unfold deletePart
  have hf : db.parts.filter (fun p => !(p.id == scanId)) = db.parts :=
    List.filter_eq_self.mpr (fun p hp => by simp [h p hp])
  rw [hf]

theorem deletePart_missing_noop_witness :
    (∀ p ∈ sampleDraftDb1.parts, p.id ≠ "zz") ∧
    deletePart "zz" sampleDraftDb1 = (Except.ok (), sampleDraftDb1) :=
  ⟨by decide, deletePart_missing_noop "zz" sampleDraftDb1 (by decide)⟩

/-- C6 (failing input): the data layer does not restrict part mutation to
draft orders.  `updatePartQuantity` and `deletePart` perform no status
check, so a part owned by a finalized order is updated (respectively
deleted) with a success result, contradicting the draft-only rule. -/
theorem updatePartQuantity_finalized_succeeds :
    updatePartQuantity "q1" 3 "t2" sampleFinalDb =
      (Except.ok (),
       { sampleFinalDb with parts :=
          [{ id := "q1", ro_id := "r2", barcode_value := "B1", quantity := 3,
             created_at := "t0", updated_at := "t2" }] }) ∧
    deletePart "q1" sampleFinalDb =
      (Except.ok (), { sampleFinalDb with parts := [] }) := by
  constructor
  · rfl
  · rfl

/-- C8: the decode pipeline is the first-success iteration of the four
stages in the fixed order Normal, Grayscale, Contrast, Threshold; a frame
decodable only under the threshold transform is attributed to the
"Threshold" stage after the three earlier attempts failed; and a frame with
no decodable symbol under any transform yields `none` (NotFound), not an
error. -/
theorem processFrame_stage_order {Img : Type} (decode : Img → Option String)
    (gray eqh thresh : Img → Img) (frame : Img) :
    processFrame decode gray eqh thresh frame =
      (pipelineStagesSpec gray eqh thresh frame).findSome?
        (fun st => (decode st.2).map (fun t => (st.1, t))) ∧
    (decode frame = none → decode (gray frame) = none →
      decode (eqh (gray frame)) = none →
      ∀ s, decode (thresh (eqh (gray frame))) = some s →
        processFrame decode gray eqh thresh frame = some ("Threshold", s)) ∧
    (decode frame = none → decode (gray frame) = none →
      decode (eqh (gray frame)) = none →
      decode (thresh (eqh (gray frame))) = none →
      processFrame decode gray eqh thresh frame = none) := by
  refine ⟨?_, ?_, ?_⟩
  · unfold processFrame pipelineStagesSpec
    cases h1 : decode frame <;> cases h2 : decode (gray frame) <;>
      cases h3 : decode (eqh (gray frame)) <;>
        cases h4 : decode (thresh (eqh (gray frame))) <;>
          simp [List.findSome?_cons, h1, h2, h3, h4]
  · intro h1 h2 h3 s h4
    unfold processFrame
    simp [h1, h2, h3, h4]
  · intro h1 h2 h3 h4
    unfold processFrame
    simp [h1, h2, h3, h4]

theorem processFrame_stage_order_witness :
    processFrame decodeAt3 Nat.succ Nat.succ Nat.succ 0 = some ("Threshold", "SYM") :=
  (processFrame_stage_order decodeAt3 Nat.succ Nat.succ Nat.succ 0).2.1
    (by decide) (by decide) (by decide) "SYM" (by decide)

/-- C7: a commit attempt that fails for a business reason returns
`Rejected(reason)` and the barcode is not queued (and the store is
untouched); in particular a scan against a finalized order is rejected with
"RO is already finalized".  Only an unreachable server (`online = false`,
the thrown-exception path) queues the barcode and yields `Queued`. -/
theorem handleScan_queue_policy (pending : List String) (roId barcode now newId : String)
    (db : Store) :
    handleScan false pending roId barcode now newId db
      = (CommitResult.queued, pending ++ [barcode], db) ∧
    (∀ e, (scanPart roId barcode now newId db).1 = Except.error e →
      handleScan true pending roId barcode now newId db
        = (CommitResult.rejected e, pending, db)) ∧
    (∀ ro, db.ros.find? (fun r => r.id == roId) = some ro →
      ro.status = ROStatus.finalized →
      handleScan true pending roId barcode now newId db
        = (CommitResult.rejected "RO is already finalized", pending, db)) := by
  refine ⟨rfl, ?_, ?_⟩
  · intro e he
    have h2 := scanPart_error_frame roId barcode now newId db e he
    unfold handleScan
    rw [h2]
    rfl
  · intro ro hro hfin
    have he : (scanPart roId barcode now newId db).1
        = Except.error "RO is already finalized" := by
      unfold scanPart
      rw [hro]
      simp [hfin]
    have h2 := scanPart_error_frame roId barcode now newId db _ he
    unfold handleScan
    rw [h2]
    rfl

theorem handleScan_queue_policy_witness :
    handleScan false [] "r2" "B9" "t5" "n1" sampleFinalDb
      = (CommitResult.queued, ["B9"], sampleFinalDb) ∧
    handleScan true [] "r2" "B9" "t5" "n1" sampleFinalDb
      = (CommitResult.rejected "RO is already finalized", [], sampleFinalDb) :=
  ⟨(handleScan_queue_policy [] "r2" "B9" "t5" "n1" sampleFinalDb).1,
   (handleScan_queue_policy [] "r2" "B9" "t5" "n1" sampleFinalDb).2.2
     sampleFinalRO (by decide) (by decide)⟩

theorem handleSyncGo_spec (reach : Nat → Bool) (gens : Nat → String × String)
    (roId : String) (pending : List String) :
    ∀ (i : Nat) (db : Store),
      (handleSyncResults reach gens roId i pending db).map Prod.fst = pending ∧
      (handleSyncGo reach gens roId i pending db).1 =
        ((handleSyncResults reach gens roId i pending db).filter
          (fun r => !r.2)).map Prod.fst := by
  induction pending with
  | nil =>
    intro i db
    simp [handleSyncGo, handleSyncResults]
  | cons b rest ih =>
    intro i db
    unfold handleSyncGo handleSyncResults
    rcases hs : syncAttempt reach gens roId i b db with ⟨res, db1⟩
    cases res with
    | ok p =>
      refine ⟨?_, ?_⟩
      · simp [(ih (i + 1) db1).1]
      · simp [(ih (i + 1) db1).2]
    | error e =>
      refine ⟨?_, ?_⟩
      · simp [(ih (i + 1) db1).1]
      · simp [(ih (i + 1) db1).2]

/-- C5: one drain pass attempts every queued entry in FIFO order (the
attempt log lists exactly the queued barcodes, in order, so a rejection
does not stop the pass); the new queue holds exactly the barcodes whose
attempt failed, kept in their original relative order (a sublist of the old
queue), while the committed ones are removed. -/
theorem handleSync_drain (reach : Nat → Bool) (gens : Nat → String × String)
    (roId : String) (pending : List String) (db : Store) :
    (handleSyncResults reach gens roId 0 pending db).map Prod.fst = pending ∧
    (handleSync reach gens roId pending db).1 =
      ((handleSyncResults reach gens roId 0 pending db).filter
        (fun r => !r.2)).map Prod.fst ∧
    ((handleSync reach gens roId pending db).1).Sublist pending := by
  obtain ⟨h1, h2⟩ := handleSyncGo_spec reach gens roId pending 0 db
  refine ⟨h1, h2, ?_⟩
  have h3 : (handleSync reach gens roId pending db).1 =
      ((handleSyncResults reach gens roId 0 pending db).filter
        (fun r => !r.2)).map Prod.fst := h2
  rw [h3]
  conv_rhs => rw [← h1]
  exact List.Sublist.map Prod.fst (List.filter_sublist _)

theorem finalize_ro_steps_cases (roId roNumber finId now : String) (fail : FinStep → Bool)
    (db : Store) :
    (∃ e dbx, finalize_ro_steps roId roNumber finId now fail db = (Except.error e, dbx)) ∨
    finalize_ro_steps roId roNumber finId now fail db
      = (Except.ok (), finalizeEffect roId roNumber finId now db) := by
  unfold finalize_ro_steps
  split
  · exact Or.inl ⟨_, _, rfl⟩
  · split
    · exact Or.inl ⟨_, _, rfl⟩
    · split
      · exact Or.inl ⟨_, _, rfl⟩
      · split
        · exact Or.inl ⟨_, _, rfl⟩
        · exact Or.inr rfl

theorem finalize_ro_cases (roId roNumber finId now : String) (fail : FinStep → Bool)
    (db : Store) :
    (∃ e, finalize_ro roId roNumber finId now fail db = (Except.error e, db)) ∨
    finalize_ro roId roNumber finId now fail db
      = (Except.ok (), finalizeEffect roId roNumber finId now db) := by
  unfold finalize_ro
  rcases finalize_ro_steps_cases roId roNumber finId now fail db with ⟨e, dbx, hs⟩ | hs
  · rw [hs]
    exact Or.inl ⟨e, rfl⟩
  · rw [hs]
    exact Or.inr rfl

theorem handleFinalize_cases (pendingScans : List String) (roId roNumber finId now : String)
    (fail : FinStep → Bool) (db : Store) :
    (∃ e, handleFinalize pendingScans roId roNumber finId now fail db
        = (Except.error e, db)) ∨
    handleFinalize pendingScans roId roNumber finId now fail db
      = (Except.ok (), finalizeEffect roId roNumber finId now db) := by
  unfold handleFinalize
  split
  · exact Or.inl ⟨_, rfl⟩
  · unfold finalizeRO
    split
    · exact Or.inl ⟨_, rfl⟩
    · split
      · exact Or.inl ⟨_, rfl⟩
      · split
        · exact Or.inl ⟨_, rfl⟩
        · exact finalize_ro_cases roId roNumber finId now fail db

/-- C4: finalization is atomic.  Whatever step fails — the pending-queue
guard, the existence/draft/empty checks of the action, the RPC's status
check, or (through the `fail` oracle) any of the RPC's three writes — the
call returns an error with the store exactly as it was; on success the
store carries the complete effect (finalized status, snapshot header, and
all snapshot lines).  No run leaves a partial state. -/
theorem handleFinalize_atomic (pendingScans : List String)
    (roId roNumber finId now : String) (fail : FinStep → Bool) (db : Store) :
    (∃ e, handleFinalize pendingScans roId roNumber finId now fail db
        = (Except.error e, db)) ∨
    handleFinalize pendingScans roId roNumber finId now fail db
      = (Except.ok (), finalizeEffect roId roNumber finId now db) :=
  handleFinalize_cases pendingScans roId roNumber finId now fail db

theorem ros_any_finalized_false (roId : String) (db : Store) (ro : RO)
    (hro : db.ros.find? (fun r => r.id == roId) = some ro)
    (hdraft : ro.status = ROStatus.draft)
    (hnodup : (db.ros.map RO.id).Nodup) :
    db.ros.any (fun r => r.id == roId && r.status == ROStatus.finalized) = false := by
  rw [List.any_eq_false]
  intro r hr
  simp only [Bool.and_eq_true, beq_iff_eq, not_and]
  intro hid
  have hmem := List.mem_of_find?_eq_some hro
  have hpro := List.find?_some hro
  have hroid : ro.id = roId := by simpa using hpro
  have hre : r = ro := List.inj_on_of_nodup_map hnodup hr hmem (by rw [hid, hroid])
  rw [hre, hdraft]
  simp

theorem finalizeRO_success (roId roNumber finId now : String) (db : Store) (ro : RO)
    (hro : db.ros.find? (fun r => r.id == roId) = some ro)
    (hdraft : ro.status = ROStatus.draft)
    (hnodup : (db.ros.map RO.id).Nodup)
    (hparts : (db.parts.filter (fun p => p.ro_id == roId)).isEmpty = false) :
    finalizeRO roId roNumber finId now noFail db
      = (Except.ok (), finalizeEffect roId roNumber finId now db) := by
  have hany := ros_any_finalized_false roId db ro hro hdraft hnodup
  unfold finalizeRO
  rw [hro]
  simp only [hdraft, ne_eq]
  rw [if_neg (by simp)]
  rw [hparts]
  rw [if_neg (by simp)]
  unfold finalize_ro finalize_ro_steps
  rw [hany]
  simp [noFail, finalizeEffect]

/-- C3: finalization is rejected, with the store unchanged, whenever any
precondition fails — pending offline scans remain, the order does not
exist, the order is not in draft (so a second finalize is rejected), or the
order has no parts — and succeeds exactly when all preconditions of §4.3
hold. -/
theorem handleFinalize_preconditions (pendingScans : List String)
    (roId roNumber finId now : String) (db : Store)
    (hnodup : (db.ros.map RO.id).Nodup) :
    ((handleFinalize pendingScans roId roNumber finId now noFail db).1 = Except.ok ()
      ↔ finalizePrecondsSpec pendingScans roId db = true) ∧
    ∀ e, (handleFinalize pendingScans roId roNumber finId now noFail db).1 = Except.error e →
      (handleFinalize pendingScans roId roNumber finId now noFail db).2 = db := by
  constructor
  · cases pendingScans with
    | cons a l => simp [handleFinalize, finalizePrecondsSpec]
    | nil =>
      have hh : handleFinalize [] roId roNumber finId now noFail db
          = finalizeRO roId roNumber finId now noFail db := by
        unfold handleFinalize
        simp
      rw [hh]
      cases hfind : db.ros.find? (fun r => r.id == roId) with
      | none => simp [finalizeRO, hfind, finalizePrecondsSpec]
      | some ro =>
        by_cases hst : ro.status = ROStatus.draft
        · by_cases hemp : (db.parts.filter (fun p => p.ro_id == roId)).isEmpty
          · simp [finalizeRO, hfind, hst, hemp, finalizePrecondsSpec]
          · have hsucc := finalizeRO_success roId roNumber finId now db ro hfind hst hnodup
              (by simpa using hemp)
            rw [hsucc]
            simp [finalizePrecondsSpec, hfind, hst, hemp]
        · simp [finalizeRO, hfind, hst, finalizePrecondsSpec]
  · intro e he
    rcases handleFinalize_cases pendingScans roId roNumber finId now noFail db with
      ⟨e2, h⟩ | h
    · rw [h]
    · rw [h] at he
      simp at he

theorem handleFinalize_preconditions_witness :
    (handleFinalize [] "r1" "R100" "f1" "t9" noFail sampleDraftDb1).1 = Except.ok () :=
  (handleFinalize_preconditions [] "r1" "R100" "f1" "t9" sampleDraftDb1
    (by decide)).1.mpr (by decide)

/-- C2: finalizing an order holding parts P returns success and a store in
which the snapshot lines under the new header are exactly the
(barcode, quantity) pairs of P at that instant; and because the lines are
copies in `ro_final_parts`, no later mutation of live part rows
(`updatePartQuantity`, `deletePart`, `scanPart`) ever changes the lines of
any snapshot — the snapshot is a deep copy, not a reference. -/
theorem finalizeRO_snapshot_deep_copy (roId roNumber finId now : String) (db : Store)
    (ro : RO)
    (hro : db.ros.find? (fun r => r.id == roId) = some ro)
    (hdraft : ro.status = ROStatus.draft)
    (hnodup : (db.ros.map RO.id).Nodup)
    (hparts : (db.parts.filter (fun p => p.ro_id == roId)).isEmpty = false)
    (hfresh : ∀ fp ∈ db.finalParts, fp.final_entry_id ≠ finId) :
    finalizeRO roId roNumber finId now noFail db
      = (Except.ok (), finalizeEffect roId roNumber finId now db) ∧
    snapshotLines finId (finalizeEffect roId roNumber finId now db)
      = (db.parts.filter (fun p => p.ro_id == roId)).map (fun p =>
          { final_entry_id := finId, barcode_value := p.barcode_value,
            quantity := p.quantity }) ∧
    (∀ sid q n2 db2, snapshotLines finId ((updatePartQuantity sid q n2 db2).2)
        = snapshotLines finId db2) ∧
    (∀ sid db2, snapshotLines finId ((deletePart sid db2).2) = snapshotLines finId db2) ∧
    (∀ rid b2 n2 nid db2, snapshotLines finId ((scanPart rid b2 n2 nid db2).2)
        = snapshotLines finId db2) := by
  refine ⟨finalizeRO_success roId roNumber finId now db ro hro hdraft hnodup hparts,
    ?_, ?_, ?_, ?_⟩
  · unfold snapshotLines finalizeEffect
    rw [List.filter_append]
    have h1 : db.finalParts.filter (fun fp => fp.final_entry_id == finId) = [] :=
      List.filter_eq_nil_iff.mpr (fun fp hfp => by simp [hfresh fp hfp])
    rw [h1, List.filter_map]
    simp
  · intro sid q n2 db2
    unfold snapshotLines
    rw [updatePartQuantity_finalParts]
  · intro sid db2
    unfold snapshotLines
    rw [deletePart_finalParts]
  · intro rid b2 n2 nid db2
    unfold snapshotLines
    rw [scanPart_finalParts]

theorem finalizeRO_snapshot_deep_copy_witness :
    finalizeRO "r1" "R100" "f1" "t9" noFail sampleDraftDb1
      = (Except.ok (), finalizeEffect "r1" "R100" "f1" "t9" sampleDraftDb1) ∧
    snapshotLines "f1" (finalizeEffect "r1" "R100" "f1" "t9" sampleDraftDb1)
      = [{ final_entry_id := "f1", barcode_value := "A1", quantity := 1 }] :=
  ⟨(finalizeRO_snapshot_deep_copy "r1" "R100" "f1" "t9" sampleDraftDb1 sampleRO
      (by decide) (by decide) (by decide) (by decide) (by decide)).1,
   by
    rw [(finalizeRO_snapshot_deep_copy "r1" "R100" "f1" "t9" sampleDraftDb1 sampleRO
      (by decide) (by decide) (by decide) (by decide) (by decide)).2.1]
    decide⟩

/-- C10: a repeat commit of an existing part's barcode returns the part
with only `quantity` (incremented) and `updated_at` (restamped) changed —
`id`, `ro_id`, `barcode_value` and `created_at` are untouched — and the
store differs only in that per-row update: the `ro`, `ro_final_entries`
and `ro_final_parts` tables are unchanged, and every part row with a
different id is still present unchanged. -/
theorem scanPart_repeat_frame (roId b now nid : String) (db : Store) (ro : RO)
    (p0 : ScannedPart)
    (hro : db.ros.find? (fun r => r.id == roId) = some ro)
    (hdraft : ro.status = ROStatus.draft)
    (hfound : db.parts.find? (fun p => p.ro_id == roId && p.barcode_value == b) = some p0) :
    scanPart roId b now nid db =
      (Except.ok { p0 with quantity := p0.quantity + 1, updated_at := now },
       { db with parts := db.parts.map (fun p =>
           if p.id == p0.id then { p with quantity := p0.quantity + 1, updated_at := now }
           else p) }) ∧
    ((scanPart roId b now nid db).2).ros = db.ros ∧
    ((scanPart roId b now nid db).2).finalEntries = db.finalEntries ∧
    ((scanPart roId b now nid db).2).finalParts = db.finalParts ∧
    ∀ q ∈ db.parts, q.id ≠ p0.id → q ∈ ((scanPart roId b now nid db).2).parts := by
  have hmain : scanPart roId b now nid db =
      (Except.ok { p0 with quantity := p0.quantity + 1, updated_at := now },
       { db with parts := db.parts.map (fun p =>
           if p.id == p0.id then { p with quantity := p0.quantity + 1, updated_at := now }
           else p) }) := by
    unfold scanPart
    rw [hro]
    simp only [hdraft, ne_eq]
    rw [if_neg (by simp)]
    rw [hfound]
  refine ⟨hmain, by rw [hmain], by rw [hmain], by rw [hmain], ?_⟩
  intro q hq hne
  rw [hmain]
  show q ∈ db.parts.map (fun p =>
    if p.id == p0.id then { p with quantity := p0.quantity + 1, updated_at := now } else p)
  have hgq : (fun p =>
      if p.id == p0.id then { p with quantity := p0.quantity + 1, updated_at := now }
      else p) q = q := by
    simp [hne]
  rw [← hgq]
  exact List.mem_map_of_mem _ hq

theorem scanPart_repeat_frame_witness :
    scanPart "r1" "A1" "t7" "n9" sampleDraftDb1 =
      (Except.ok { id := "p1", ro_id := "r1", barcode_value := "A1", quantity := 2,
                   created_at := "t1", updated_at := "t7" },
       { sampleDraftDb1 with parts :=
          [{ id := "p1", ro_id := "r1", barcode_value := "A1", quantity := 2,
             created_at := "t1", updated_at := "t7" }] }) := by
  rw [(scanPart_repeat_frame "r1" "A1" "t7" "n9" sampleDraftDb1 sampleRO samplePart
    (by decide) (by decide) (by decide)).1]
  rfl

/-- C1: scanning the same barcode twice against a draft order that does not
yet hold it first creates the row with quantity 1, then increments that
same row to quantity 2; afterwards the store holds exactly one part row for
(order, barcode) — the one with quantity 2 — not a duplicate. -/
theorem scanPart_twice_unique (roId b now1 id1 now2 id2 : String) (db : Store) (ro : RO)
    (hro : db.ros.find? (fun r => r.id == roId) = some ro)
    (hdraft : ro.status = ROStatus.draft)
    (hnone : db.parts.find? (fun p => p.ro_id == roId && p.barcode_value == b) = none)
    (hfresh : ∀ p ∈ db.parts, p.id ≠ id1) :
    (scanPart roId b now1 id1 db).1 = Except.ok
      { id := id1, ro_id := roId, barcode_value := b, quantity := 1,
        created_at := now1, updated_at := now1 } ∧
    (scanPart roId b now2 id2 (scanPart roId b now1 id1 db).2).1 = Except.ok
      { id := id1, ro_id := roId, barcode_value := b, quantity := 2,
        created_at := now1, updated_at := now2 } ∧
    ((scanPart roId b now2 id2 (scanPart roId b now1 id1 db).2).2).parts.filter
        (fun p => p.ro_id == roId && p.barcode_value == b)
      = [{ id := id1, ro_id := roId, barcode_value := b, quantity := 2,
           created_at := now1, updated_at := now2 }] := by
  have h1 : scanPart roId b now1 id1 db =
      (Except.ok ({ id := id1, ro_id := roId, barcode_value := b, quantity := 1,
                    created_at := now1, updated_at := now1 } : ScannedPart),
       { db with parts := db.parts ++
          [({ id := id1, ro_id := roId, barcode_value := b, quantity := 1,
              created_at := now1, updated_at := now1 } : ScannedPart)] }) := by
    unfold scanPart
    rw [hro]
    simp only [hdraft, ne_eq]
    rw [if_neg (by simp)]
    rw [hnone]
  have hfind2 : (db.parts ++
      [({ id := id1, ro_id := roId, barcode_value := b, quantity := 1,
          created_at := now1, updated_at := now1 } : ScannedPart)]).find?
        (fun p => p.ro_id == roId && p.barcode_value == b)
      = some ({ id := id1, ro_id := roId, barcode_value := b, quantity := 1,
                created_at := now1, updated_at := now1 } : ScannedPart) := by
    rw [List.find?_append, hnone]
    simp
  have h2 : scanPart roId b now2 id2
      { db with parts := db.parts ++
          [({ id := id1, ro_id := roId, barcode_value := b, quantity := 1,
              created_at := now1, updated_at := now1 } : ScannedPart)] } =
      (Except.ok ({ id := id1, ro_id := roId, barcode_value := b, quantity := 2,
                    created_at := now1, updated_at := now2 } : ScannedPart),
       { db with parts := ((db.parts ++
          [({ id := id1, ro_id := roId, barcode_value := b, quantity := 1,
              created_at := now1, updated_at := now1 } : ScannedPart)]).map (fun p =>
            if p.id == id1 then
              ({ p with quantity := 2, updated_at := now2 } : ScannedPart)
            else p)) }) := by
    unfold scanPart
    dsimp only
    rw [hro]
    simp only [hdraft, ne_eq]
    rw [if_neg (by simp)]
    rw [hfind2]
    rfl
  have hmapped : (db.parts ++
      [({ id := id1, ro_id := roId, barcode_value := b, quantity := 1,
          created_at := now1, updated_at := now1 } : ScannedPart)]).map (fun p =>
        if p.id == id1 then
          ({ p with quantity := 2, updated_at := now2 } : ScannedPart)
        else p)
      = db.parts ++
        [({ id := id1, ro_id := roId, barcode_value := b, quantity := 2,
            created_at := now1, updated_at := now2 } : ScannedPart)] := by
    rw [List.map_append]
    congr 1
    · have hgp : ∀ p ∈ db.parts, (fun p =>
          if p.id == id1 then
            ({ p with quantity := 2, updated_at := now2 } : ScannedPart)
          else p) p = id p := by
        intro p hp
        simp [hfresh p hp]
      exact (List.map_congr_left hgp).trans (List.map_id _)
    · simp
  refine ⟨by rw [h1], ?_, ?_⟩
  · rw [h1]
    show (scanPart roId b now2 id2 _).1 = _
    rw [h2]
  · rw [h1]
    show ((scanPart roId b now2 id2 _).2).parts.filter _ = _
    rw [h2]
    show ((db.parts ++ _).map _).filter _ = _
    rw [hmapped, List.filter_append]
    have hleft : db.parts.filter
        (fun p => p.ro_id == roId && p.barcode_value == b) = [] :=
      List.filter_eq_nil_iff.mpr (List.find?_eq_none.mp hnone)
    rw [hleft]
    simp

theorem scanPart_twice_unique_witness :
    ((scanPart "r1" "A1" "t2" "p2" (scanPart "r1" "A1" "t1" "p1" sampleDraftDb).2).2).parts.filter
        (fun p => p.ro_id == "r1" && p.barcode_value == "A1")
      = [{ id := "p1", ro_id := "r1", barcode_value := "A1", quantity := 2,
           created_at := "t1", updated_at := "t2" }] :=
  (scanPart_twice_unique "r1" "A1" "t1" "p1" "t2" "p2" sampleDraftDb sampleRO
    (by decide) (by decide) (by decide) (by decide)).2.2

end AutoParts
